import Mathlib

/-!
Verification of the password-derivation script
`Exercise 2/python_script/claim_password.py`.

The script reads two hard-coded integers, adds them, encodes the sum as a
32-byte big-endian sequence (`int.to_bytes(32, 'big')`), hashes those bytes
with Keccak-256 (`Crypto.Hash.keccak`, `digest_bits=256`) and reinterprets the
32-byte digest as a big-endian unsigned integer.

We embed the whole pipeline, including the Keccak-256 permutation, as
executable Lean functions over `Nat` / `Int` (machine words are `Nat` with
explicit `% 2^64`), and prove the specification's claims about it.
-/

namespace ClaimPassword

/-- Big-endian fixed-width encoding of a natural number: `width` bytes, most
significant byte first (the byte string produced by Python's
`n.to_bytes(width, byteorder='big')` when it succeeds). -/
def to_bytes_be_nat : Nat → Nat → List Nat
  | 0, _ => []
  | width + 1, n => to_bytes_be_nat width (n / 256) ++ [n % 256]

/-- Big-endian reinterpretation of a byte sequence as an unsigned integer,
as in Python's `int.from_bytes(bs, byteorder='big')`. -/
def int_from_bytes_be (bs : List Nat) : Nat :=
  bs.foldl (fun acc b => 256 * acc + b) 0

/-- Little-endian interpretation of (up to 8) bytes as one 64-bit lane. -/
def bytesToLaneLE (bs : List Nat) : Nat :=
  bs.foldr (fun b acc => b + 256 * acc) 0

/-- The 8 bytes of a 64-bit lane, least significant first. -/
def laneToBytesLE (lane : Nat) : List Nat :=
  List.ofFn (fun i : Fin 8 => (lane >>> (8 * i.val)) % 256)

/-- 64-bit exclusive or. -/
def xor64 (a b : Nat) : Nat := Nat.xor a b

/-- 64-bit left rotation by `n` bits (`0 ≤ n < 64`). -/
def rotl64 (a n : Nat) : Nat :=
  ((a <<< n) ||| (a >>> (64 - n))) % (2 ^ 64)

/-- 64-bit bitwise complement of a lane. -/
def not64 (a : Nat) : Nat := Nat.xor a (2 ^ 64 - 1)

/-- Fill the Keccak ρ-step offset table by the FIPS 202 recurrence: starting
from lane `(1, 0)`, step `t` stores `(t+1)(t+2)/2 mod 64` and moves to lane
`(y, (2x+3y) mod 5)`. -/
def rhoLoop : Nat → Nat → Nat → Nat → List Nat → List Nat
  | 0, _, _, _, tbl => tbl
  | steps + 1, t, x, y, tbl =>
    rhoLoop steps (t + 1) y ((2 * x + 3 * y) % 5)
      (tbl.set (x + 5 * y) ((t + 1) * (t + 2) / 2 % 64))

/-- Keccak ρ-step rotation offsets, indexed by `x + 5 * y` (lane `(0, 0)` is
not rotated). -/
def rotOffsets : List Nat := rhoLoop 24 0 1 0 (List.replicate 25 0)

/-- One step of the degree-8 LFSR of FIPS 202 Algorithm 5 (taps at bits 0, 4,
5 and 6, i.e. `0x71`, fed by the outgoing bit 7). -/
def lfsrStep (r : Nat) : Nat :=
  Nat.xor (r <<< 1) (r >>> 7 * 0x71) % 256

/-- The LFSR state after `t` steps from the initial state 1. -/
def lfsrIter : Nat → Nat
  | 0 => 1
  | t + 1 => lfsrStep (lfsrIter t)

/-- The round-constant bit `rc(t)`: bit 0 of the LFSR state after `t` steps. -/
def rcBit (t : Nat) : Nat := lfsrIter t % 2

/-- The Keccak-f[1600] round constant of round `i`: bit `2^j - 1` is
`rc(j + 7i)` for `j < 7`. -/
def roundConstant (i : Nat) : Nat :=
  (List.range 7).foldl (fun acc j => acc + rcBit (j + 7 * i) * 2 ^ (2 ^ j - 1)) 0

/-- The 24 Keccak-f[1600] round constants. -/
def roundConstants : List Nat := (List.range 24).map roundConstant

/-- One Keccak-f round (θ, ρ, π, χ, ι) on a 25-lane state, lane `(x, y)`
stored at index `x + 5 * y`. -/
def keccakRound (rc : Nat) (A : List Nat) : List Nat :=
  let get := fun x y => A.getD (x + 5 * y) 0
  let C := fun x => [get x 0, get x 1, get x 2, get x 3, get x 4].foldl xor64 0
  let D := fun x => xor64 (C ((x + 4) % 5)) (rotl64 (C ((x + 1) % 5)) 1)
  let A1 := fun x y => xor64 (get x y) (D x)
  -- ρ and π combined: B[y][(2x+3y) mod 5] = rotl(A1[x][y], r[x][y]); read off
  -- the source coordinates of destination (X, Y) as x = (3Y + X) mod 5, y = X.
  let B := fun X Y =>
    let x := (3 * Y + X) % 5
    rotl64 (A1 x X) (rotOffsets.getD (x + 5 * X) 0)
  let A2 := fun x y =>
    xor64 (B x y) (Nat.land (not64 (B ((x + 1) % 5) y)) (B ((x + 2) % 5) y))
  List.ofFn (fun i : Fin 25 =>
    let x := i.val % 5
    let y := i.val / 5
    if i.val = 0 then xor64 (A2 0 0) rc else A2 x y)

/-- The full Keccak-f[1600] permutation: 24 rounds. -/
def keccakF (A : List Nat) : List Nat :=
  roundConstants.foldl (fun st rc => keccakRound rc st) A

/-- Keccak pad10*1 with the original Keccak domain byte `0x01` (the padding
used by `Crypto.Hash.keccak`, as opposed to SHA-3's `0x06`). -/
def keccakPad (rate : Nat) (msg : List Nat) : List Nat :=
  let p := msg.length % rate
  if p = rate - 1 then msg ++ [0x81]
  else msg ++ [0x01] ++ List.replicate (rate - 2 - p) 0 ++ [0x80]

/-- XOR one `rate`-byte block into the first 17 lanes of the state and apply
the permutation. -/
def absorbBlock (st block : List Nat) : List Nat :=
  keccakF (List.ofFn (fun i : Fin 25 =>
    if i.val < 17 then
      xor64 (st.getD i.val 0) (bytesToLaneLE ((block.drop (8 * i.val)).take 8))
    else st.getD i.val 0))

/-- Absorb a padded message, 136 bytes at a time. The `fuel` argument only
drives structural recursion; any fuel of at least `msg.length` blocks is
enough, since every step consumes 136 bytes of a non-empty message. -/
def absorb (fuel : Nat) (st msg : List Nat) : List Nat :=
  match fuel with
  | 0 => st
  | fuel + 1 =>
    if msg.length = 0 then st
    else absorb fuel (absorbBlock st (msg.take 136)) (msg.drop 136)

/-- Squeeze the first 32 bytes (256 bits) out of the state: lanes 0–3, each
serialised little-endian. -/
def squeeze (st : List Nat) : List Nat :=
  laneToBytesLE (st.getD 0 0) ++ laneToBytesLE (st.getD 1 0) ++
  laneToBytesLE (st.getD 2 0) ++ laneToBytesLE (st.getD 3 0)

/-- Keccak-256 (`keccak.new(digest_bits=256)`): rate 1088 bits = 136 bytes,
capacity 512 bits, 32-byte digest. -/
def keccak256 (msg : List Nat) : List Nat :=
  squeeze (absorb (keccakPad 136 msg).length (List.replicate 25 0) (keccakPad 136 msg))

/-- The failure modes of the derivation, following the specification's
taxonomy. In the Python source both conditions surface as the two distinct
`OverflowError`s of `int.to_bytes(32, 'big')`: a negative value raises
"can't convert negative int to unsigned" (the spec's `InvalidInputError`)
and a value of 2^256 or more raises "int too big to convert" (the spec's
`EncodingRangeError`). -/
inductive DeriveError where
  | invalidInput
  | encodingRange
deriving DecidableEq

/-- Python's `v.to_bytes(width, byteorder='big')` on an arbitrary-precision
signed integer: fails on a negative value, fails when the value does not fit
in `width` bytes, and otherwise returns the big-endian zero-padded bytes. -/
def to_bytes_be (width : Nat) (v : Int) : Except DeriveError (List Nat) :=
  if v < 0 then .error .invalidInput
  else if (256 : Int) ^ width ≤ v then .error .encodingRange
  else .ok (to_bytes_be_nat width v.toNat)

/-- The derivation pipeline of `claim_password.py`, parameterised by its two
inputs (the script hard-codes them; see `hidden_password` and `salt`):
`value = base_value + salt`, `encoded = value.to_bytes(32, 'big')`,
`password = int.from_bytes(keccak_256(encoded), 'big')`. -/
def derive_password (base_value salt : Int) : Except DeriveError Nat :=
  (to_bytes_be 32 (base_value + salt)).map
    (fun encoded => int_from_bytes_be (keccak256 encoded))

/-- The script's first hard-coded constant (`hidden_password = 544387104597`). -/
def hidden_password : Int := 544387104597

/-- The script's second hard-coded constant (`salt = 1754933492`). -/
def salt : Int := 1754933492

/-- The script's `value = hidden_password + salt`. -/
def value : Int := hidden_password + salt

/-- The script's `encoded = value.to_bytes(32, byteorder='big')`. -/
def encoded : Except DeriveError (List Nat) := to_bytes_be 32 value

/-- The script's `password = int.from_bytes(k.digest(), byteorder='big')`,
where `k` is `keccak.new(digest_bits=256)` updated with `encoded`. -/
def password : Except DeriveError Nat := derive_password hidden_password salt

/-! ### Helper lemmas -/

/-- Each serialised lane byte is a residue modulo 256. -/
lemma laneToBytesLE_mem_lt (lane : Nat) : ∀ b ∈ laneToBytesLE lane, b < 256 := by
  intro b hb
  rw [laneToBytesLE, List.mem_ofFn] at hb
  obtain ⟨i, hi⟩ := hb
  rw [← hi]
  exact Nat.mod_lt _ (by norm_num)

/-- A serialised lane is 8 bytes long. -/
lemma laneToBytesLE_length (lane : Nat) : (laneToBytesLE lane).length = 8 := by
  simp [laneToBytesLE]

/-- A Keccak-256 digest has exactly 32 bytes. -/
lemma keccak256_length (msg : List Nat) : (keccak256 msg).length = 32 := by
  simp [keccak256, squeeze, laneToBytesLE_length]

/-- Every byte of a Keccak-256 digest is below 256. -/
lemma keccak256_mem_lt (msg : List Nat) : ∀ b ∈ keccak256 msg, b < 256 := by
  intro b hb
  rw [keccak256, squeeze] at hb
  simp only [List.mem_append] at hb
  rcases hb with ((hb | hb) | hb) | hb <;>
    exact laneToBytesLE_mem_lt _ _ hb

/-- Folding bytes below 256 onto an accumulator stays below
`256 ^ length * (a + 1)`. -/
lemma foldl_bytes_lt (bs : List Nat) (h : ∀ b ∈ bs, b < 256) :
    ∀ a, bs.foldl (fun acc b => 256 * acc + b) a < 256 ^ bs.length * (a + 1) := by
  induction bs with
  | nil => intro a; simp
  | cons b bs ih =>
    intro a
    have hb : b < 256 := h b (List.mem_cons_self b bs)
    have htail : ∀ x ∈ bs, x < 256 := fun x hx => h x (List.mem_cons_of_mem b hx)
    have step := ih htail (256 * a + b)
    calc List.foldl (fun acc b => 256 * acc + b) (256 * a + b) bs
        < 256 ^ bs.length * (256 * a + b + 1) := step
      _ ≤ 256 ^ bs.length * (256 * (a + 1)) := by
          apply Nat.mul_le_mul_left
          omega
      _ = 256 ^ (bs.length + 1) * (a + 1) := by ring

/-- A big-endian reinterpretation of bytes below 256 is below
`256 ^ length`. -/
lemma int_from_bytes_be_lt (bs : List Nat) (h : ∀ b ∈ bs, b < 256) :
    int_from_bytes_be bs < 256 ^ bs.length := by
  have := foldl_bytes_lt bs h 0
  simpa [int_from_bytes_be] using this

/-- Appending one byte multiplies the big-endian value by 256 and adds it. -/
lemma int_from_bytes_be_append (l : List Nat) (b : Nat) :
    int_from_bytes_be (l ++ [b]) = 256 * int_from_bytes_be l + b := by
  simp [int_from_bytes_be, List.foldl_append]

/-- Big-endian decoding inverts fixed-width big-endian encoding for values
that fit in the width. -/
lemma int_from_to_bytes_be_nat :
    ∀ (width n : Nat), n < 256 ^ width →
      int_from_bytes_be (to_bytes_be_nat width n) = n := by
  intro width
  induction width with
  | zero =>
    intro n hn
    interval_cases n
    rfl
  | succ w ih =>
    intro n hn
    rw [to_bytes_be_nat, int_from_bytes_be_append, ih (n / 256) ?_]
    · exact Nat.div_add_mod n 256
    · apply Nat.div_lt_of_lt_mul
      rw [pow_succ] at hn
      rw [Nat.mul_comm]
      exact hn

/-- Fixed-width big-endian encoding is injective on values that fit. -/
lemma to_bytes_be_nat_inj (width m n : Nat) (hm : m < 256 ^ width)
    (hn : n < 256 ^ width) (h : to_bytes_be_nat width m = to_bytes_be_nat width n) :
    m = n := by
  have := int_from_to_bytes_be_nat width m hm
  rw [h, int_from_to_bytes_be_nat width n hn] at this
  exact this.symm

/-- On a negative combined value the pipeline fails with the negative-value
encoding error. -/
lemma derive_password_invalid (b s : Int) (h : b + s < 0) :
    derive_password b s = .error .invalidInput := by
  rw [derive_password, to_bytes_be, if_pos h]
  rfl

/-- On a combined value of `2 ^ 256` or more the pipeline fails with the
out-of-range encoding error. -/
lemma derive_password_range (b s : Int) (h : (2 : Int) ^ 256 ≤ b + s) :
    derive_password b s = .error .encodingRange := by
  have h256 : ((256 : Int) ^ 32) = 2 ^ 256 := by norm_num
  have hpos : (0 : Int) ≤ 2 ^ 256 := by positivity
  rw [derive_password, to_bytes_be, if_neg (not_lt.mpr (le_trans hpos h)),
    if_pos (by rw [h256]; exact h)]
  rfl

/-- On an in-range combined value the pipeline hashes the 32-byte big-endian
encoding of the sum. -/
lemma derive_password_of_nonneg_lt (b s : Int) (h0 : 0 ≤ b + s)
    (h1 : b + s < (2 : Int) ^ 256) :
    derive_password b s =
      .ok (int_from_bytes_be (keccak256 (to_bytes_be_nat 32 (b + s).toNat))) := by
  have h256 : ((256 : Int) ^ 32) = 2 ^ 256 := by norm_num
  rw [derive_password, to_bytes_be, if_neg (not_lt.mpr h0),
    if_neg (by rw [h256]; exact not_le.mpr h1)]
  rfl

/-- Inverting a successful fixed-width encoding: the value was in range and
the bytes are its big-endian encoding. -/
lemma to_bytes_be_eq_ok {width : Nat} {v : Int} {e : List Nat}
    (h : to_bytes_be width v = .ok e) :
    0 ≤ v ∧ v < (256 : Int) ^ width ∧ e = to_bytes_be_nat width v.toNat := by
  rw [to_bytes_be] at h
  split at h
  · simp at h
  next h1 =>
    split at h
    · simp at h
    next h2 =>
      simp only [Except.ok.injEq] at h
      exact ⟨not_lt.mp h1, not_le.mp h2, h.symm⟩

/-! ### Claims -/

/-- Claim C2: whenever the combined value `base_value + salt` is at least
`2 ^ 256`, the derivation fails with the out-of-range encoding error (the
spec taxonomy name is `EncodingRangeError`) instead of truncating or
wrapping. -/
theorem claim2_overflow_rejected (b s : Int) (h : (2 : Int) ^ 256 ≤ b + s) :
    derive_password b s = .error .encodingRange :=
  derive_password_range b s h

/-- Witness for C2: the spec test vector `base_value = 2 ^ 256 - 1`,
`salt = 1` is rejected. -/
theorem claim2_witness :
    derive_password ((2 : Int) ^ 256 - 1) 1 = .error .encodingRange :=
  claim2_overflow_rejected ((2 : Int) ^ 256 - 1) 1 (by norm_num)

/-- Counterexample to C3 as stated: `base_value = -1` is negative, yet with
`salt = 2` the derivation succeeds (the code only ever inspects the sum, so a
negative input offset by the other addend passes the encoder). -/
theorem claim3_counterexample :
    (-1 : Int) < 0 ∧
      derive_password (-1) 2 =
        Except.ok (int_from_bytes_be (keccak256 (to_bytes_be_nat 32 1))) :=
  ⟨by norm_num, rfl⟩

/-- Claim C3, amended: the derivation fails with the negative-value error
(the spec taxonomy name is `InvalidInputError`) exactly when the combined sum
`base_value + salt` is negative; individual negative inputs whose sum is
non-negative are not rejected. -/
theorem claim3_negative_sum_iff (b s : Int) :
    derive_password b s = .error .invalidInput ↔ b + s < 0 := by
  constructor
  · intro h
    by_contra hge
    push_neg at hge
    rcases lt_or_ge (b + s) ((2 : Int) ^ 256) with hlt | hge2
    · rw [derive_password_of_nonneg_lt b s hge hlt] at h
      simp at h
    · rw [derive_password_range b s hge2] at h
      simp at h
  · intro h
    exact derive_password_invalid b s h

/-- Witness for the amended C3: `base_value = -1`, `salt = 0` is rejected as
a negative value. -/
theorem claim3_witness : derive_password (-1) 0 = .error .invalidInput :=
  (claim3_negative_sum_iff (-1) 0).mpr (by norm_num)

/-- Claim C5: every successfully derived password lies in `[0, 2 ^ 256)`. -/
theorem claim5_output_range (b s : Int) (p : Nat)
    (h : derive_password b s = .ok p) : p < 2 ^ 256 := by
  rcases lt_or_ge (b + s) 0 with hneg | h0
  · rw [derive_password_invalid b s hneg] at h
    simp at h
  · rcases lt_or_ge (b + s) ((2 : Int) ^ 256) with hlt | hge
    · rw [derive_password_of_nonneg_lt b s h0 hlt] at h
      simp only [Except.ok.injEq] at h
      rw [← h]
      have hmem := keccak256_mem_lt (to_bytes_be_nat 32 (b + s).toNat)
      have hlt2 := int_from_bytes_be_lt _ hmem
      rw [keccak256_length] at hlt2
      calc int_from_bytes_be (keccak256 (to_bytes_be_nat 32 (b + s).toNat))
          < 256 ^ 32 := hlt2
        _ = 2 ^ 256 := by norm_num
    · rw [derive_password_range b s hge] at h
      simp at h

/-- Witness for C5: the password derived from `(0, 0)` is below `2 ^ 256`. -/
theorem claim5_witness :
    int_from_bytes_be (keccak256 (to_bytes_be_nat 32 (Int.toNat 0))) < 2 ^ 256 :=
  claim5_output_range 0 0 _ rfl

/-- Claim C6: the derivation is deterministic and pure; two invocations on
identical inputs return identical results. -/
theorem claim6_deterministic (b s b' s' : Int) (hb : b = b') (hs : s = s') :
    derive_password b s = derive_password b' s' := by
  rw [hb, hs]

/-- Witness for C6: two invocations on `(1, 2)` agree. -/
theorem claim6_witness : derive_password 1 2 = derive_password 1 2 :=
  claim6_deterministic 1 2 1 2 rfl rfl

/-- Claim C7: the hash used by the pipeline is Keccak-256 (`digest_bits=256`,
rate 136 bytes), and its digest is exactly 32 bytes long on every input, in
particular on the 32-byte encoded sequence. -/
theorem claim7_digest_width (msg : List Nat) : (keccak256 msg).length = 32 :=
  keccak256_length msg

/-- Claim C9: the password depends on the two inputs only through their sum,
and in particular is unchanged when `base_value` and `salt` are swapped. -/
theorem claim9_sum_determines :
    (∀ b s b' s' : Int, b + s = b' + s' →
      derive_password b s = derive_password b' s') ∧
    (∀ b s : Int, derive_password b s = derive_password s b) := by
  constructor
  · intro b s b' s' h
    rw [derive_password, derive_password, h]
  · intro b s
    rw [derive_password, derive_password, Int.add_comm]

/-- Witness for C9: `(1, 2)` and `(0, 3)` have equal sums and therefore equal
passwords. -/
theorem claim9_witness : derive_password 1 2 = derive_password 0 3 :=
  claim9_sum_determines.1 1 2 0 3 (by norm_num)

/-- Claim C10: for the constants hard-coded in the script the combined value
is `546142038089`, it lies in `[0, 2 ^ 256)`, and the encoding step succeeds,
so the error branch of the fixed-width encoder is unreachable in the program
as shipped. -/
theorem claim10_error_unreachable :
    value = 546142038089 ∧ (0 : Int) ≤ value ∧ value < 2 ^ 256 ∧
      encoded = Except.ok (to_bytes_be_nat 32 546142038089) :=
  ⟨rfl, by norm_num [value, hidden_password, salt],
    by norm_num [value, hidden_password, salt], rfl⟩

set_option maxRecDepth 100000

set_option maxHeartbeats 4000000

/-- Claim C1: for the hard-coded inputs the combined value is
`546142038089`, the intermediate encoding is byte-for-byte the 32-byte
big-endian encoding of that number (27 zero bytes followed by
`0x7f 0x28 0x9a 0x28 0x49`), and the returned password is the Keccak-256
digest of those bytes reinterpreted as a big-endian unsigned integer. -/
theorem claim1_concrete_scenario :
    value = 546142038089 ∧
    encoded = Except.ok
      [0, 0, 0, 0, 0, 0, 0, 0, 0, 0, 0, 0, 0, 0, 0, 0, 0, 0, 0, 0, 0, 0, 0,
       0, 0, 0, 0, 0x7f, 0x28, 0x9a, 0x28, 0x49] ∧
    to_bytes_be_nat 32 546142038089 =
      [0, 0, 0, 0, 0, 0, 0, 0, 0, 0, 0, 0, 0, 0, 0, 0, 0, 0, 0, 0, 0, 0, 0,
       0, 0, 0, 0, 0x7f, 0x28, 0x9a, 0x28, 0x49] ∧
    password = Except.ok
      (int_from_bytes_be (keccak256 (to_bytes_be_nat 32 546142038089))) ∧
    password = Except.ok
      10512041859969190989958573495678937286072151474677461679212467687808821191039 := by
  have henc : encoded = Except.ok (to_bytes_be_nat 32 546142038089) := rfl
  have hbytes : to_bytes_be_nat 32 546142038089 =
      [0, 0, 0, 0, 0, 0, 0, 0, 0, 0, 0, 0, 0, 0, 0, 0, 0, 0, 0, 0, 0, 0, 0,
       0, 0, 0, 0, 0x7f, 0x28, 0x9a, 0x28, 0x49] := by decide
  have hpw : password = Except.ok
      (int_from_bytes_be (keccak256 (to_bytes_be_nat 32 546142038089))) := rfl
  have hval : int_from_bytes_be (keccak256 (to_bytes_be_nat 32 546142038089)) =
      10512041859969190989958573495678937286072151474677461679212467687808821191039 := by
    decide
  exact ⟨rfl, by rw [henc, hbytes], hbytes, hpw, by rw [hpw, hval]⟩

/-- Claim C4: the boundary input `base_value = 0`, `salt = 0` succeeds and
returns the Keccak-256 digest of 32 zero bytes reinterpreted as a big-endian
unsigned integer. -/
theorem claim4_zero_boundary :
    derive_password 0 0 =
      Except.ok (int_from_bytes_be (keccak256 (List.replicate 32 0))) ∧
    derive_password 0 0 = Except.ok
      18569430475105882587588266137607568536673111973893317399460219858819262702947 := by
  have h0 : derive_password 0 0 =
      Except.ok (int_from_bytes_be (keccak256 (to_bytes_be_nat 32 (Int.toNat 0)))) := rfl
  have hrep : to_bytes_be_nat 32 (Int.toNat 0) = List.replicate 32 0 := by decide
  have hval : int_from_bytes_be (keccak256 (List.replicate 32 0)) =
      18569430475105882587588266137607568536673111973893317399460219858819262702947 := by
    decide
  refine ⟨?_, ?_⟩
  · rw [h0, hrep]
  · rw [h0, hrep, hval]

/-- Claim C8: distinct salts give distinct combined encodings (for any fixed
`base_value`, whenever both encodings succeed), and for the hard-coded
`base_value` the two salts `1754933492` and `1754933493` derive different
passwords. -/
theorem claim8_salt_sensitivity :
    (∀ (b s s' : Int) (e e' : List Nat), s ≠ s' →
        to_bytes_be 32 (b + s) = .ok e → to_bytes_be 32 (b + s') = .ok e' →
        e ≠ e') ∧
    derive_password hidden_password salt ≠
      derive_password hidden_password (salt + 1) := by
  constructor
  · intro b s s' e e' hss he he' heq
    obtain ⟨h0, hlt, he⟩ := to_bytes_be_eq_ok he
    obtain ⟨h0', hlt', he'⟩ := to_bytes_be_eq_ok he'
    have hpow : ((256 : Int) ^ 32) = 115792089237316195423570985008687907853269984665640564039457584007913129639936 := by
      norm_num
    have hpowN : (256 : Nat) ^ 32 = 115792089237316195423570985008687907853269984665640564039457584007913129639936 := by
      norm_num
    rw [he, he'] at heq
    have hmN : (b + s).toNat < 256 ^ 32 := by
      rw [hpowN]; rw [hpow] at hlt; omega
    have hnN : (b + s').toNat < 256 ^ 32 := by
      rw [hpowN]; rw [hpow] at hlt'; omega
    have := to_bytes_be_nat_inj 32 _ _ hmN hnN heq
    apply hss
    omega
  · have ha : derive_password hidden_password salt = Except.ok
        (int_from_bytes_be (keccak256 (to_bytes_be_nat 32 546142038089))) := rfl
    have hb : derive_password hidden_password (salt + 1) = Except.ok
        (int_from_bytes_be (keccak256 (to_bytes_be_nat 32 546142038090))) := rfl
    have hva : int_from_bytes_be (keccak256 (to_bytes_be_nat 32 546142038089)) =
        10512041859969190989958573495678937286072151474677461679212467687808821191039 := by
      decide
    have hvb : int_from_bytes_be (keccak256 (to_bytes_be_nat 32 546142038090)) =
        8775958683694603257705079454872668290483437977028251981121315859154944216606 := by
      decide
    rw [ha, hb, hva, hvb]
    intro hc
    simp only [Except.ok.injEq] at hc
    exact absurd hc (by decide)

/-- Witness for C8: the encodings of the sums `0 + 5` and `0 + 7` differ. -/
theorem claim8_witness :
    to_bytes_be_nat 32 (Int.toNat 5) ≠ to_bytes_be_nat 32 (Int.toNat 7) :=
  claim8_salt_sensitivity.1 0 5 7 _ _ (by norm_num) rfl rfl

end ClaimPassword
